import Mathlib

/-!
Verification development for the reactor I/O backend layer
(src/core/reactor_backend.cc): a shallow embedding of the
AIO storage submission/retry/reap engine, the general AIO
submission ring, the epoll readiness bookkeeping, the per-backend
known-events fast path, and the backend selector, together with
theorems settling the behavioural claims about them.

Conventions of the embedding:
- machine integers become Nat (errno, event masks, counts) or Int
  (signed I/O results);
- iocb pointers become slot identifiers (Nat); the iocb pool free
  stack is a List Nat of free slot identifiers;
- kernel system calls (io_submit, io_getevents, epoll_pwait) are
  oracles: their successive return values are passed in as lists;
- completion callbacks, epoll_ctl calls and submissions handed to
  the kernel are recorded in explicit output lists, so that claims
  about which side effects a call performs become statements about
  those lists;
- std::abort / failed assert paths are distinguished constructors;
  a loop whose oracle runs out (the code would keep spinning) is
  reported as stuck.
-/

namespace ReactorBackend

/-- errno value EAGAIN on Linux. -/
def EAGAIN : Nat := 11

/-- errno value EBADF on Linux. -/
def EBADF : Nat := 9

/-- errno value EINTR on Linux. -/
def EINTR : Nat := 4

/-- poll/epoll readable bit (POLLIN and EPOLLIN are both 0x1). -/
def POLLIN : Nat := 1

/-- poll/epoll writable bit (POLLOUT and EPOLLOUT are both 0x4). -/
def POLLOUT : Nat := 4

/-- EPOLLERR bit (0x8). -/
def EPOLLERR : Nat := 8

/-- EPOLLHUP bit (0x10). -/
def EPOLLHUP : Nat := 16

/-- The C idiom x AND NOT mask (x &= ~mask) on the nonnegative event
masks used here, computed as a XOR (a AND b), which agrees with
a AND NOT b bit by bit. -/
def bit_clear (a b : Nat) : Nat := a ^^^ (a &&& b)

/-- io_request::operation, restricted to the opcodes prepare_iocb accepts. -/
inductive Operation where
  | read
  | write
  | readv
  | writev
  | fdatasync
deriving DecidableEq, Repr

/-- One (io_request, io_completion*) pair drained from the reactor io_sink.
`desc` identifies the completion object passed alongside the request. -/
structure IoRequest where
  opcode : Operation
  nowait_works : Bool
  desc : Nat
deriving DecidableEq, Repr

/-- A kernel control block as filled by prepare_iocb: the pool slot it
occupies, its RWF_NOWAIT hint, whether eventfd notification was attached,
and the user_data pointer (a completion identifier). -/
structure Iocb where
  id : Nat
  nowait : Bool
  eventfd_notify : Bool
  user_data : Nat
deriving DecidableEq, Repr

/-- set_nowait on an iocb. -/
def set_nowait_iocb (io : Iocb) (v : Bool) : Iocb :=
  { io with nowait := v }

/-- prepare_iocb: fdatasync requests get a fdsync iocb (no nowait hint);
read/write/readv/writev iocbs carry the request's nowait_works hint.
user_data is set to the completion descriptor. -/
def prepare_iocb (req : IoRequest) (slot : Nat) : Iocb :=
  match req.opcode with
  | .fdatasync => { id := slot, nowait := false, eventfd_notify := false, user_data := req.desc }
  | _ => { id := slot, nowait := req.nowait_works, eventfd_notify := false, user_data := req.desc }

namespace aio_storage_context

/-- The drain phase of submit_work: pull requests from the io_sink while
the iocb pool has capacity; each drained request acquires one free slot,
is prepared, optionally gets eventfd notification attached, and is pushed
onto the submission queue. Returns the remaining free slots, the built
submission queue, and the requests left in the sink. -/
def drain (aio_eventfd : Bool) : List Nat → List IoRequest →
    List Nat × List Iocb × List IoRequest
  | free, [] => (free, [], [])
  | [], reqs => ([], [], reqs)
  | slot :: free, req :: reqs =>
    let io := prepare_iocb req slot
    let io := if aio_eventfd then { io with eventfd_notify := true } else io
    let out := drain aio_eventfd free reqs
    (out.1, io :: out.2.1, out.2.2)

/-- Result of handle_aio_error: either a number of iocbs consumed together
with the updated free stack and the completions fired, or the fatal
(throw_system_error_on / abort) path. -/
inductive AioErrorOut where
  | consumed (n : Nat) (free : List Nat) (fired : List (Nat × Int))
  | fatal
deriving DecidableEq, Repr

/-- handle_aio_error: EAGAIN consumes 0 iocbs and touches nothing;
EBADF releases the first iocb back to the pool, completes its descriptor
with -EBADF and consumes 1; anything else is fatal. -/
def handle_aio_error (free : List Nat) (io : Iocb) (ec : Nat) : AioErrorOut :=
  if ec = EAGAIN then
    .consumed 0 free []
  else if ec = EBADF then
    .consumed 1 (io.id :: free) [(io.user_data, -(EBADF : Int))]
  else
    .fatal

/-- One io_submit return value: either r iocbs accepted, or -1 with errno. -/
inductive SubmitResult where
  | ok (r : Nat)
  | err (errno : Nat)
deriving DecidableEq, Repr

/-- Accumulated observable state of the submit_work submission loop:
the pool free stack, the completions fired, the iocbs handed to the
kernel, the number of io_submit invocations, and the did_work flag. -/
structure SubmitAcc where
  free : List Nat
  fired : List (Nat × Int)
  handed : List Iocb
  io_submit_calls : Nat
  did_work : Bool
deriving DecidableEq, Repr

/-- Outcome of the submission loop: normal exit, the fatal
handle_aio_error path, or oracle exhaustion while iocbs remain
unsubmitted (the code would keep calling io_submit). -/
inductive LoopOut where
  | done (a : SubmitAcc)
  | fatal (a : SubmitAcc)
  | stuck (a : SubmitAcc)
deriving DecidableEq, Repr

/-- The while (to_submit > submitted) loop of submit_work. The queue
argument is the not-yet-consumed suffix of the submission queue; each
io_submit response either consumes a prefix (handed to the kernel) or
is routed through handle_aio_error on the first iocb of the remainder. -/
def submit_loop : List SubmitResult → List Iocb → SubmitAcc → LoopOut
  | _, [], acc => .done acc
  | [], _ :: _, acc => .stuck acc
  | .ok r :: rs, io :: q, acc =>
    submit_loop rs (List.drop r (io :: q))
      { acc with handed := acc.handed ++ List.take r (io :: q),
                 io_submit_calls := acc.io_submit_calls + 1,
                 did_work := true }
  | .err ec :: rs, io :: q, acc =>
    match handle_aio_error acc.free io ec with
    | .consumed n free fired =>
      submit_loop rs (List.drop n (io :: q))
        { acc with free := free,
                   fired := acc.fired ++ fired,
                   io_submit_calls := acc.io_submit_calls + 1,
                   did_work := true }
    | .fatal => .fatal { acc with io_submit_calls := acc.io_submit_calls + 1 }

/-- Observable outcome of one submit_work call. -/
structure SubmitWorkOut where
  free : List Nat
  pending_retry : List Iocb
  fired : List (Nat × Int)
  handed : List Iocb
  io_submit_calls : Nat
  did_work : Bool
  remaining : List IoRequest
deriving DecidableEq, Repr

/-- submit_work result: normal return, fatal abort, or spinning forever
in the submission loop. -/
inductive SubmitWorkRes where
  | done (o : SubmitWorkOut)
  | fatal
  | stuck
deriving DecidableEq, Repr

/-- submit_work: drain the io_sink into the submission queue (while the
pool has capacity). If _kernel_page_cache is set, move every drained
iocb into _pending_aio_retry with the nowait hint cleared and submit
nothing (to_submit becomes 0). Otherwise run the submission loop,
feeding it the io_submit oracle. -/
def submit_work (kernel_page_cache aio_eventfd : Bool) (free : List Nat)
    (pending_retry : List Iocb) (sink : List IoRequest)
    (responses : List SubmitResult) : SubmitWorkRes :=
  let d := drain aio_eventfd free sink
  if kernel_page_cache then
    .done { free := d.1,
            pending_retry := pending_retry ++ d.2.1.map (set_nowait_iocb · false),
            fired := [], handed := [], io_submit_calls := 0,
            did_work := !d.2.1.isEmpty, remaining := d.2.2 }
  else
    match submit_loop responses d.2.1
        { free := d.1, fired := [], handed := [], io_submit_calls := 0, did_work := false } with
    | .done acc =>
      .done { free := acc.free, pending_retry := pending_retry,
              fired := acc.fired, handed := acc.handed,
              io_submit_calls := acc.io_submit_calls,
              did_work := acc.did_work, remaining := d.2.2 }
    | .fatal _ => .fatal
    | .stuck _ => .stuck

/-- One io_event harvested by io_getevents: the iocb it refers to
(get_iocb), the signed result, and the user_data field. -/
structure IoEvent where
  obj : Iocb
  res : Int
  data : Nat
deriving DecidableEq, Repr

/-- Result of the io_getevents call inside reap_completions: a batch of
events, or -1 with an errno. -/
inductive GeteventsResult where
  | ok (evs : List IoEvent)
  | err (errno : Nat)
deriving DecidableEq, Repr

/-- Observable outcome of reap_completions: pool free stack, pending
retry queue, completions delivered, and the returned boolean. -/
structure ReapOut where
  free : List Nat
  pending_retry : List Iocb
  fired : List (Nat × Int)
  ret : Bool
deriving DecidableEq, Repr

/-- Processing of a single harvested event: a result of -EAGAIN with
retry allowed re-queues the iocb (nowait cleared) into the pending
retry queue without releasing it and without completing it; any other
event releases the iocb to the pool and delivers the signed result to
the completion named by the event's data field. -/
def reap_event (allow_retry : Bool) (acc : ReapOut) (ev : IoEvent) : ReapOut :=
  if ev.res = -(EAGAIN : Int) ∧ allow_retry then
    { acc with pending_retry := acc.pending_retry ++ [set_nowait_iocb ev.obj false] }
  else
    { acc with free := ev.obj.id :: acc.free,
               fired := acc.fired ++ [(ev.data, ev.res)] }

/-- reap_completions: non-blocking io_getevents; -1 with EINTR is mapped
to an empty harvest; -1 with any other errno fails the assert (none);
each event is processed by reap_event; the returned boolean is whether
any event was harvested. -/
def reap_completions (allow_retry : Bool) (free : List Nat)
    (pending_retry : List Iocb) (gev : GeteventsResult) : Option ReapOut :=
  match gev with
  | .err e =>
    if e = EINTR then
      some { free := free, pending_retry := pending_retry, fired := [], ret := false }
    else
      none
  | .ok evs =>
    let out := evs.foldl (reap_event allow_retry)
      { free := free, pending_retry := pending_retry, fired := [], ret := false }
    some { out with ret := !evs.isEmpty }

end aio_storage_context

namespace aio_general_context

/-- Result of aio_general_context::flush: normal return of the number of
iocbs that were enqueued (all accepted by the kernel), the failed
assert(retried != begin) inside the loop (abort), or oracle exhaustion
while submissions remain (the code would keep calling io_submit). -/
inductive FlushOut where
  | ok (nr : Nat)
  | assertFailed
  | stuck
deriving DecidableEq, Repr

/-- The while (begin != last) loop of flush. Each oracle step carries the
io_submit return value (0 stands for any non-positive return, e.g. -1
with EAGAIN) and the value need_preempt() would read at that iteration.
b is the index of begin, retried the index recorded at the last
preempted failure (initially last = n), n the index of last. On r > 0
begin advances; on a failed submission with need_preempt set, the loop
asserts that progress was made since the last such failure and records
the current position; it never yields. (The kernel accepts at most the
remaining count, so the advance of b is capped at n.) -/
def flush_loop : List (Nat × Bool) → Nat → Nat → Nat → FlushOut
  | [], b, _, n => if b = n then .ok n else .stuck
  | (r, np) :: rest, b, retried, n =>
    if b = n then .ok n
    else if 0 < r then flush_loop rest (min (b + r) n) retried n
    else if np then
      if retried = b then .assertFailed
      else flush_loop rest b b n
    else flush_loop rest b retried n

/-- The queue of an aio_general_context: the iocb pointers between
iocbs.get() and last. -/
structure GeneralCtx where
  queued : List Nat
deriving DecidableEq, Repr

/-- queue(iocb): append to the internally-bounded array (the bound
assert(last < end) is a capacity precondition of the source). -/
def queue (ctx : GeneralCtx) (io : Nat) : GeneralCtx :=
  { queued := ctx.queued ++ [io] }

/-- flush(): run the submission loop over everything enqueued since the
last flush; on normal exit last is reset to iocbs.get() (queue empties)
and the number of enqueued iocbs is returned. -/
def flush (ctx : GeneralCtx) (steps : List (Nat × Bool)) : FlushOut × GeneralCtx :=
  let n := ctx.queued.length
  match flush_loop steps 0 n n with
  | .ok nr => (.ok nr, { queued := [] })
  | o => (o, ctx)

end aio_general_context

/-- Per-fd readiness state (pollable_fd_state): the bitset of readiness
the user currently awaits, the bitset already observed and not yet
consumed, the bitset currently registered with epoll, and the flag for
a single await covering both directions. -/
structure PfdState where
  events_requested : Nat
  events_known : Nat
  events_epoll : Nat
  events_rw : Bool
deriving DecidableEq, Repr

namespace reactor_backend_epoll

/-- An epoll_ctl call issued by the epoll backend, with the event mask
registered by ADD/MOD. -/
inductive EpollCtl where
  | add (events : Nat)
  | mod (events : Nat)
  | del
deriving DecidableEq, Repr

/-- complete_epoll_event: when the event is both requested and reported,
clear it from events_requested and events_known and complete the
direction's future (the returned Option records the fired completion). -/
def complete_epoll_event (pfd : PfdState) (events event : Nat) :
    PfdState × Option Nat :=
  if pfd.events_requested &&& events &&& event ≠ 0 then
    ({ pfd with events_requested := bit_clear pfd.events_requested event,
                events_known := bit_clear pfd.events_known event }, some event)
  else
    (pfd, none)

/-- The per-fd body of the wait_and_process event loop: substitute
events_requested for the reported set on EPOLLHUP/EPOLLERR, restrict to
IN/OUT, compute events_to_remove against events_requested as it stood
before any completion, complete the waiting futures (both directions at
once for events_rw fds, else IN then OUT), and finally, only when
events_to_remove is non-zero, drop those bits from events_epoll and
issue EPOLL_CTL_MOD (or DEL when no mask remains). Returns the updated
fd state, the list of completed readiness futures, and the epoll_ctl
call issued (if any). -/
def handle_pfd_event (pfd : PfdState) (reported : Nat) :
    PfdState × List Nat × Option EpollCtl :=
  let evts := if reported &&& (EPOLLHUP ||| EPOLLERR) ≠ 0 then pfd.events_requested else reported
  let events := evts &&& (POLLIN ||| POLLOUT)
  let events_to_remove := bit_clear events pfd.events_requested
  let step :=
    if pfd.events_rw then
      let c := complete_epoll_event pfd events (POLLIN ||| POLLOUT)
      (c.1, c.2.toList)
    else
      let c1 := complete_epoll_event pfd events POLLIN
      let c2 := complete_epoll_event c1.1 events POLLOUT
      (c2.1, c1.2.toList ++ c2.2.toList)
  if events_to_remove ≠ 0 then
    let new_epoll := bit_clear step.1.events_epoll events_to_remove
    ({ step.1 with events_epoll := new_epoll }, step.2,
      some (if new_epoll ≠ 0 then .mod new_epoll else .del))
  else
    (step.1, step.2, none)

/-- Result of get_epoll_future: updated fd state, whether the future is
immediately ready, the epoll_ctl call issued (if any), and whether
_need_epoll_events was set. -/
structure EpollFutureOut where
  pfd : PfdState
  ready : Bool
  ctl : Option EpollCtl
  need_epoll_events : Bool
deriving DecidableEq, Repr

/-- get_epoll_future: a set known bit is consumed and the future is
immediately ready; otherwise the event is ORed into events_requested,
and when events_epoll lacks the bit an EPOLL_CTL_MOD (or ADD when
nothing was registered) installs the enlarged mask and
_need_epoll_events is set; the direction's future is returned
unresolved. -/
def get_epoll_future (pfd : PfdState) (event : Nat) : EpollFutureOut :=
  if pfd.events_known &&& event ≠ 0 then
    { pfd := { pfd with events_known := bit_clear pfd.events_known event },
      ready := true, ctl := none, need_epoll_events := false }
  else
    let pfd1 := { pfd with events_rw := event = (POLLIN ||| POLLOUT),
                           events_requested := pfd.events_requested ||| event }
    if pfd1.events_epoll &&& event ≠ event then
      let newmask := pfd1.events_epoll ||| event
      { pfd := { pfd1 with events_epoll := newmask },
        ready := false,
        ctl := some (if pfd1.events_epoll ≠ 0 then .mod newmask else .add newmask),
        need_epoll_events := true }
    else
      { pfd := pfd1, ready := false, ctl := none, need_epoll_events := false }

/-- readable() of the epoll backend. -/
def readable (pfd : PfdState) : EpollFutureOut :=
  get_epoll_future pfd POLLIN

end reactor_backend_epoll

namespace reactor_backend_aio

/-- Result of the aio backend's poll(): updated fd state, whether the
future is immediately ready, and the poll iocb queued on the polling
context (if any). -/
structure AioPollOut where
  pfd : PfdState
  ready : Bool
  queued_poll : Option Nat
deriving DecidableEq, Repr

/-- poll() of the aio backend: a known readiness bit is consumed and the
future is immediately ready; otherwise a one-shot poll iocb for the
requested events is built and queued on the polling io context and the
unresolved completion future is returned. -/
def poll (pfd : PfdState) (events : Nat) : AioPollOut :=
  if events &&& pfd.events_known ≠ 0 then
    { pfd := { pfd with events_known := bit_clear pfd.events_known events },
      ready := true, queued_poll := none }
  else
    { pfd := { pfd with events_rw := events = (POLLIN ||| POLLOUT) },
      ready := false, queued_poll := some events }

/-- readable() of the aio backend. -/
def readable (pfd : PfdState) : AioPollOut :=
  poll pfd POLLIN

end reactor_backend_aio

namespace reactor_backend_uring

/-- Result of the uring backend's poll(): updated fd state, whether the
future is immediately ready, and the IORING_OP_POLL_ADD sqe prepared
(if any). -/
structure UringPollOut where
  pfd : PfdState
  ready : Bool
  sqe_poll_add : Option Nat
deriving DecidableEq, Repr

/-- poll() of the uring backend: a known readiness bit is consumed and
the future is immediately ready; otherwise a POLL_ADD sqe is prepared
for the events and the unresolved completion future is returned. -/
def poll (pfd : PfdState) (events : Nat) : UringPollOut :=
  if events &&& pfd.events_known ≠ 0 then
    { pfd := { pfd with events_known := bit_clear pfd.events_known events },
      ready := true, sqe_poll_add := none }
  else
    { pfd := pfd, ready := false, sqe_poll_add := some events }

/-- readable() of the uring backend. -/
def readable (pfd : PfdState) : UringPollOut :=
  poll pfd POLLIN

end reactor_backend_uring

namespace reactor_backend_selector

/-- The kind of backend constructed by the selector. -/
inductive BackendKind where
  | aio
  | epoll
  | uring
deriving DecidableEq, Repr

/-- Result of reactor_backend_selector::create: a constructed backend,
a std::runtime_error, or a std::logic_error (with the thrown message). -/
inductive CreateResult where
  | backend (k : BackendKind)
  | runtimeError (msg : String)
  | logicError (msg : String)
deriving DecidableEq, Repr

/-- reactor_backend_selector::create: the tag io_uring constructs the
uring backend when the binary was built with uring support
(SEASTAR_HAVE_URING) and otherwise throws a runtime error; linux-aio
and epoll construct their backends; any other tag throws a logic
error. -/
def create (have_uring : Bool) (name : String) : CreateResult :=
  if name = "io_uring" then
    if have_uring then .backend .uring
    else .runtimeError "io_uring backend not compiled in"
  else if name = "linux-aio" then .backend .aio
  else if name = "epoll" then .backend .epoll
  else .logicError "bad reactor backend"

end reactor_backend_selector

namespace reactor_backend_epoll

/-- Observable side effects of the epoll backend entry points. -/
inductive Effect where
  | io_getevents_call
  | io_complete (desc : Nat) (res : Int)
  | epoll_pwait_call (timeout : Int)
  | fd_complete (event : Nat)
  | highres_service
deriving DecidableEq, Repr

/-- Classifier for readiness-processing effects: epoll_pwait calls and
pollable-fd readiness completions. -/
def Effect.is_readiness : Effect → Bool
  | .fd_complete _ => true
  | .epoll_pwait_call _ => true
  | _ => false

/-- reap_kernel_completions of the epoll backend: its body is exactly
_storage_context.reap_completions(); the trace records the io_getevents
call and the disk-I/O completions delivered. -/
def reap_kernel_completions (allow_retry : Bool) (free : List Nat)
    (pending_retry : List Iocb) (gev : aio_storage_context.GeteventsResult) :
    Option (Bool × aio_storage_context.ReapOut × List Effect) :=
  (aio_storage_context.reap_completions allow_retry free pending_retry gev).map
    (fun out => (out.ret, out,
      .io_getevents_call :: out.fired.map (fun c => .io_complete c.1 c.2)))

/-- One epoll_event returned by epoll_pwait inside wait_and_process:
the notify eventfd entry (null data pointer), the reactor-thread steady
clock timer entry, or a pollable fd with the reported event mask. -/
inductive WaitItem where
  | notify
  | steady_timer
  | fd (pfd : PfdState) (reported : Nat)
deriving DecidableEq, Repr

/-- The effect trace of wait_and_process: the epoll_pwait call followed
by, for each pollable-fd event, the readiness futures completed by
handle_pfd_event. (notify and steady-timer entries only read their
fds.) -/
def wait_and_process_trace (timeout : Int) (items : List WaitItem) : List Effect :=
  .epoll_pwait_call timeout ::
    items.flatMap (fun it =>
      match it with
      | .notify => []
      | .steady_timer => []
      | .fd pfd reported => ((handle_pfd_event pfd reported).2.1).map .fd_complete)

/-- The readiness-related effect trace of kernel_submit_work: it calls
wait_and_process with a zero timeout only when _need_epoll_events is
set, then services a pending highres timer. (The storage submit_work
call issues no readiness completions;
its effects are modelled by aio_storage_context.submit_work.) -/
def kernel_submit_work_trace (need_epoll_events : Bool) (items : List WaitItem)
    (highres_pending : Bool) : List Effect :=
  (if need_epoll_events then wait_and_process_trace 0 items else []) ++
    (if highres_pending then [.highres_service] else [])

/-- The effect trace of wait_and_process_events: wait_and_process with
an infinite timeout, then complete_hrtimer. -/
def wait_and_process_events_trace (items : List WaitItem)
    (highres_pending : Bool) : List Effect :=
  wait_and_process_trace (-1) items ++
    (if highres_pending then [.highres_service] else [])

end reactor_backend_epoll

open aio_storage_context aio_general_context

/-! Theorems settling the claims. -/

/-- Claim C1 as stated is false on the code. Concrete input: one drained
request, io_submit oracle answering first -1 with errno EAGAIN and then
accepting 1 iocb. The claim says that after the EAGAIN failure for the
first iocb of the batch submission stops and none of the batch's iocbs
are handed to the kernel; but submit_work loops, calls io_submit again
(io_submit_calls = 2) and hands the iocb to the kernel in the same call
(handed is non-empty). -/
theorem c1_eagain_stop_counterexample :
    aio_storage_context.submit_work false false [0] [] [⟨.read, false, 42⟩]
        [.err EAGAIN, .ok 1] =
      .done { free := [], pending_retry := [], fired := [],
              handed := [⟨0, false, false, 42⟩],
              io_submit_calls := 2, did_work := true, remaining := [] }
    ∧ ([⟨0, false, false, 42⟩] : List Iocb) ≠ [] := by
  exact ⟨rfl, by decide⟩

/-- Claim C1 amended: when io_submit fails with errno EAGAIN for the
first iocb of the batch, that attempt consumes no iocbs - none are
handed to the kernel, released back to the pool, or completed - but
submission does not stop: submit_work immediately retries io_submit
with the same batch (the loop continues on the unchanged queue, with
only the call counter and did_work updated). -/
theorem c1_eagain_consumes_none_and_retries (rs : List SubmitResult) (io : Iocb)
    (q : List Iocb) (acc : SubmitAcc) :
    submit_loop (.err EAGAIN :: rs) (io :: q) acc =
      submit_loop rs (io :: q)
        { acc with io_submit_calls := acc.io_submit_calls + 1, did_work := true } := by
  simp [submit_loop, handle_aio_error]

/-- Claim C5: when io_submit fails with errno EBADF for the first iocb,
handle_aio_error consumes exactly that one iocb - it is released back
to the iocb pool and its completion is invoked with the signed result
-EBADF - and the submission loop continues with the remaining iocbs. -/
theorem c5_ebadf_consumes_exactly_one (free : List Nat) (io : Iocb)
    (rs : List SubmitResult) (q : List Iocb) (acc : SubmitAcc) :
    handle_aio_error free io EBADF =
      .consumed 1 (io.id :: free) [(io.user_data, -(EBADF : Int))]
    ∧ submit_loop (.err EBADF :: rs) (io :: q) acc =
        submit_loop rs q
          { acc with free := io.id :: acc.free,
                     fired := acc.fired ++ [(io.user_data, -(EBADF : Int))],
                     io_submit_calls := acc.io_submit_calls + 1,
                     did_work := true } := by
  constructor
  · simp [handle_aio_error, EBADF, EAGAIN]
  · simp [submit_loop, handle_aio_error, EBADF, EAGAIN]

/-- Claim C6: with the kernel-page-cache flag set, submit_work performs
no io_submit call on the reactor thread (zero inline submissions,
nothing handed to the kernel, no completion fired); every drained iocb
is instead appended to the pending-retry queue with its nowait hint
cleared. -/
theorem c6_kernel_page_cache_offload (aio_eventfd : Bool) (free : List Nat)
    (pending_retry : List Iocb) (sink : List IoRequest)
    (responses : List SubmitResult) :
    ∃ o, aio_storage_context.submit_work true aio_eventfd free pending_retry sink responses
        = .done o
      ∧ o.io_submit_calls = 0
      ∧ o.handed = []
      ∧ o.fired = []
      ∧ o.pending_retry =
          pending_retry ++ (drain aio_eventfd free sink).2.1.map (set_nowait_iocb · false)
      ∧ ∀ io ∈ o.pending_retry.drop pending_retry.length, io.nowait = false := by
  refine ⟨_, rfl, rfl, rfl, rfl, rfl, ?_⟩
  intro io hio
  rw [List.drop_left] at hio
  simp only [List.mem_map] at hio
  obtain ⟨x, _, hx⟩ := hio
  rw [← hx]
  rfl

/-- Witness for c6_kernel_page_cache_offload at a concrete input: one
drained read request is offloaded, nothing is submitted inline. -/
theorem c6_kernel_page_cache_offload_witness :
    ∃ o, aio_storage_context.submit_work true false [0] [] [⟨.read, true, 42⟩] []
        = .done o
      ∧ o.io_submit_calls = 0
      ∧ o.handed = []
      ∧ o.fired = []
      ∧ o.pending_retry =
          [] ++ (drain false [0] [⟨.read, true, 42⟩]).2.1.map (set_nowait_iocb · false)
      ∧ ∀ io ∈ o.pending_retry.drop ([] : List Iocb).length, io.nowait = false :=
  c6_kernel_page_cache_offload false [0] [] [⟨.read, true, 42⟩] []

/-- Claim C10: when io_getevents fails with -1 and errno EINTR,
reap_completions behaves as a zero-event harvest: the pool and the
pending-retry queue are untouched, no completion is invoked, and the
call returns false instead of failing. -/
theorem c10_reap_eintr (allow_retry : Bool) (free : List Nat)
    (pending_retry : List Iocb) :
    reap_completions allow_retry free pending_retry (.err EINTR) =
      some { free := free, pending_retry := pending_retry, fired := [], ret := false } := by
  simp [reap_completions]

/-- Helper: every normal exit of the flush loop reports the full
enqueued count (the loop only leaves through the begin = last test). -/
theorem flush_loop_ok_eq (steps : List (Nat × Bool)) (b retried n m : Nat)
    (h : flush_loop steps b retried n = .ok m) : m = n := by
  induction steps generalizing b retried with
  | nil =>
    by_cases hb : b = n
    · simp [flush_loop, hb] at h
      exact h.symm
    · simp [flush_loop, hb] at h
  | cons s rest ih =>
    obtain ⟨r, np⟩ := s
    by_cases hb : b = n
    · simp [flush_loop, hb] at h
      exact h.symm
    · by_cases hr : 0 < r
      · rw [flush_loop, if_neg hb, if_pos hr] at h
        exact ih _ _ h
      · by_cases hnp : np = true
        · by_cases hret : retried = b
          · rw [flush_loop, if_neg hb, if_neg hr, if_pos hnp, if_pos hret] at h
            cases h
          · rw [flush_loop, if_neg hb, if_neg hr, if_pos hnp, if_neg hret] at h
            exact ih _ _ h
        · rw [flush_loop, if_neg hb, if_neg hr, if_neg hnp] at h
          exact ih _ _ h

/-- Claim C2 as stated is false on the code: flush does not yield
cooperatively when need_preempt asserts. Concrete input: one enqueued
iocb, io_submit twice returning a non-positive result (EAGAIN) while
need_preempt reads true at both iterations. Instead of yielding so
other work is not starved, the loop asserts that progress was made
since the last preempted failure, and the second failure without
progress fails that assert (the process aborts); nothing is accepted
by the kernel and the queue is not emptied. -/
theorem c2_flush_yield_counterexample :
    aio_general_context.flush ⟨[9]⟩ [(0, true), (0, true)] =
      (.assertFailed, ⟨[9]⟩) := by
  rfl

/-- Claim C2 amended: flush keeps calling io_submit until every
enqueued iocb has been accepted by the kernel, retrying on EAGAIN
within the same call and never yielding; when need_preempt asserts at
a failed submission it merely asserts forward progress since the last
preempted failure (aborting otherwise); whenever flush returns
normally it returns the number of enqueued iocbs, all of them accepted
by the kernel, and the queue is left empty. -/
theorem c2_flush_submits_all :
    (∀ ctx steps out ctx2,
        aio_general_context.flush ctx steps = (.ok out, ctx2) →
          out = ctx.queued.length ∧ ctx2.queued = [])
  ∧ (∀ rest b retried n, b ≠ n →
        flush_loop ((0, false) :: rest) b retried n = flush_loop rest b retried n)
  ∧ (∀ rest b n, b ≠ n →
        flush_loop ((0, true) :: rest) b b n = .assertFailed) := by
  refine ⟨?_, ?_, ?_⟩
  · intro ctx steps out ctx2 h
    rw [aio_general_context.flush] at h
    rcases hl : flush_loop steps 0 ctx.queued.length ctx.queued.length with m | _ | _ <;>
      rw [hl] at h
    · cases h
      exact ⟨flush_loop_ok_eq _ _ _ _ _ hl, rfl⟩
    · cases h
    · cases h
  · intro rest b retried n hb
    simp [flush_loop, hb]
  · intro rest b n hb
    simp [flush_loop, hb]

/-- Witness for c2_flush_submits_all at concrete inputs: a flush of one
enqueued iocb whose single submission is accepted returns 1 with the
queue emptied, and a failed non-preempted submission retries. -/
theorem c2_flush_submits_all_witness :
    (1 = (aio_general_context.GeneralCtx.mk [9]).queued.length
      ∧ (aio_general_context.GeneralCtx.mk []).queued = [])
  ∧ flush_loop [(0, false)] 0 2 3 = flush_loop [] 0 2 3 := by
  exact ⟨c2_flush_submits_all.1 ⟨[9]⟩ [(1, false)] 1 ⟨[]⟩ rfl,
         c2_flush_submits_all.2.1 [] 0 2 3 (by decide)⟩

/-- Claim C3 as stated is false on the code. Concrete input: interest
IN|OUT is registered (events_requested = events_epoll = IN|OUT = 5,
separate awaits, so events_rw = false) and the kernel reports only IN
(reported = 1). The wakeup completes the IN future (the fired list is
[1]) but issues no epoll_ctl at all (none): events_to_remove is
computed against events_requested before the completion clears IN, so
it is IN AND NOT (IN|OUT) = 0, and events_epoll still contains IN
(stays 5). The EPOLL_CTL_MOD the claim requires does not happen in
this wakeup. -/
theorem c3_mask_minimisation_counterexample :
    reactor_backend_epoll.handle_pfd_event ⟨5, 0, 5, false⟩ 1 =
      (⟨4, 0, 5, false⟩, [1], none) := by
  rfl

/-- Claim C3 amended: the wakeup that resolves the IN future issues no
epoll_ctl and leaves IN registered in events_epoll (the removal mask is
computed from events_requested before the completion consumes IN); it
is the next wakeup reporting IN - now no longer requested - that
issues EPOLL_CTL_MOD clearing IN from events_epoll while retaining
OUT. Stated for any events_known contents k. -/
theorem c3_mask_removal_deferred (k : Nat) :
    reactor_backend_epoll.handle_pfd_event ⟨5, k, 5, false⟩ 1 =
      (⟨4, bit_clear k 1, 5, false⟩, [1], none)
  ∧ reactor_backend_epoll.handle_pfd_event ⟨4, bit_clear k 1, 5, false⟩ 1 =
      (⟨4, bit_clear k 1, 4, false⟩, [], some (.mod 4)) := by
  have e1 : bit_clear 1 5 = 0 := by decide
  have e2 : bit_clear 1 4 = 1 := by decide
  have e3 : bit_clear 5 1 = 4 := by decide
  constructor <;>
    simp [reactor_backend_epoll.handle_pfd_event,
          reactor_backend_epoll.complete_epoll_event,
          POLLIN, POLLOUT, EPOLLHUP, EPOLLERR, e1, e2, e3]

/-- Helper: 1 AND x is non-zero exactly when bit 0 of x is set. -/
theorem land_one_ne_zero_left (x : Nat) : (1 &&& x ≠ 0) ↔ x.testBit 0 = true := by
  rw [Nat.land_comm, Nat.and_one_is_mod, Nat.testBit_zero, decide_eq_true_eq]
  omega

/-- Helper: x AND 1 is non-zero exactly when bit 0 of x is set. -/
theorem land_one_ne_zero_right (x : Nat) : (x &&& 1 ≠ 0) ↔ x.testBit 0 = true := by
  rw [Nat.and_one_is_mod, Nat.testBit_zero, decide_eq_true_eq]
  omega

/-- Helper: bit i of bit_clear a b is bit i of a with bit i of b masked
off. -/
theorem testBit_bit_clear (a b i : Nat) :
    (bit_clear a b).testBit i = (a.testBit i && !(b.testBit i)) := by
  unfold bit_clear
  rw [Nat.testBit_xor, Nat.testBit_and]
  cases ha : a.testBit i <;> cases hb : b.testBit i <;> rfl

/-- Helper: clearing bit 0 leaves bit 0 unset. -/
theorem bit_clear_one_testBit_zero (x : Nat) : (bit_clear x 1).testBit 0 = false := by
  rw [testBit_bit_clear]
  simp

/-- Helper: get_epoll_future is never immediately ready when the
requested event is not among the known events. -/
theorem get_epoll_future_not_ready (pfd : PfdState) (event : Nat)
    (h : pfd.events_known &&& event = 0) :
    (reactor_backend_epoll.get_epoll_future pfd event).ready = false := by
  simp only [reactor_backend_epoll.get_epoll_future]
  rw [if_neg (fun hc => hc h)]
  split <;> rfl

/-- Claim C4: on every backend, when the IN bit of events_known is set,
the next readable() consumes it - the call is immediately ready and
the bit is cleared - and the readable() after that is not ready: it
suspends on the direction's future (queueing a poll iocb on the aio
backend, preparing a POLL_ADD sqe on the uring backend, returning the
epoll completion future on the epoll backend). -/
theorem c4_known_events_consume_once (pfd : PfdState)
    (h : pfd.events_known.testBit 0 = true) :
    ((reactor_backend_aio.readable pfd).ready = true
      ∧ (reactor_backend_aio.readable pfd).pfd.events_known.testBit 0 = false
      ∧ (reactor_backend_aio.readable (reactor_backend_aio.readable pfd).pfd).ready = false
      ∧ (reactor_backend_aio.readable (reactor_backend_aio.readable pfd).pfd).queued_poll
          = some POLLIN)
  ∧ ((reactor_backend_epoll.readable pfd).ready = true
      ∧ (reactor_backend_epoll.readable pfd).pfd.events_known.testBit 0 = false
      ∧ (reactor_backend_epoll.readable (reactor_backend_epoll.readable pfd).pfd).ready = false)
  ∧ ((reactor_backend_uring.readable pfd).ready = true
      ∧ (reactor_backend_uring.readable pfd).pfd.events_known.testBit 0 = false
      ∧ (reactor_backend_uring.readable (reactor_backend_uring.readable pfd).pfd).ready = false
      ∧ (reactor_backend_uring.readable (reactor_backend_uring.readable pfd).pfd).sqe_poll_add
          = some POLLIN) := by
  have hin : (1 : Nat) &&& pfd.events_known ≠ 0 := (land_one_ne_zero_left _).mpr h
  have hin2 : pfd.events_known &&& 1 ≠ 0 := (land_one_ne_zero_right _).mpr h
  have hz : (1 : Nat) &&& bit_clear pfd.events_known 1 = 0 := by
    by_contra hc
    have := (land_one_ne_zero_left _).mp hc
    rw [bit_clear_one_testBit_zero] at this
    cases this
  have hz2 : bit_clear pfd.events_known 1 &&& 1 = 0 := by
    by_contra hc
    have := (land_one_ne_zero_right _).mp hc
    rw [bit_clear_one_testBit_zero] at this
    cases this
  have ha1 : reactor_backend_aio.readable pfd =
      { pfd := { pfd with events_known := bit_clear pfd.events_known 1 },
        ready := true, queued_poll := none } := by
    simp only [reactor_backend_aio.readable, reactor_backend_aio.poll, POLLIN]
    rw [if_pos hin]
  have hapfd : (reactor_backend_aio.readable pfd).pfd =
      { pfd with events_known := bit_clear pfd.events_known 1 } := by
    rw [ha1]
  have ha2 : reactor_backend_aio.readable
        { pfd with events_known := bit_clear pfd.events_known 1 } =
      { pfd := { pfd with events_known := bit_clear pfd.events_known 1,
                          events_rw := false },
        ready := false, queued_poll := some 1 } := by
    simp only [reactor_backend_aio.readable, reactor_backend_aio.poll, POLLIN, POLLOUT]
    rw [if_neg (fun hc => hc hz)]
    rfl
  have he1 : reactor_backend_epoll.readable pfd =
      { pfd := { pfd with events_known := bit_clear pfd.events_known 1 },
        ready := true, ctl := none, need_epoll_events := false } := by
    simp only [reactor_backend_epoll.readable, reactor_backend_epoll.get_epoll_future, POLLIN]
    rw [if_pos hin2]
  have hepfd : (reactor_backend_epoll.readable pfd).pfd =
      { pfd with events_known := bit_clear pfd.events_known 1 } := by
    rw [he1]
  have hu1 : reactor_backend_uring.readable pfd =
      { pfd := { pfd with events_known := bit_clear pfd.events_known 1 },
        ready := true, sqe_poll_add := none } := by
    simp only [reactor_backend_uring.readable, reactor_backend_uring.poll, POLLIN]
    rw [if_pos hin]
  have hupfd : (reactor_backend_uring.readable pfd).pfd =
      { pfd with events_known := bit_clear pfd.events_known 1 } := by
    rw [hu1]
  have hu2 : reactor_backend_uring.readable
        { pfd with events_known := bit_clear pfd.events_known 1 } =
      { pfd := { pfd with events_known := bit_clear pfd.events_known 1 },
        ready := false, sqe_poll_add := some 1 } := by
    simp only [reactor_backend_uring.readable, reactor_backend_uring.poll, POLLIN]
    rw [if_neg (fun hc => hc hz)]
  refine ⟨⟨?_, ?_, ?_, ?_⟩, ⟨?_, ?_, ?_⟩, ⟨?_, ?_, ?_, ?_⟩⟩
  · rw [ha1]
  · rw [hapfd]
    exact bit_clear_one_testBit_zero _
  · rw [hapfd, ha2]
  · rw [hapfd, ha2]
    rfl
  · rw [he1]
  · rw [hepfd]
    exact bit_clear_one_testBit_zero _
  · rw [hepfd]
    exact get_epoll_future_not_ready _ POLLIN hz2
  · rw [hu1]
  · rw [hupfd]
    exact bit_clear_one_testBit_zero _
  · rw [hupfd, hu2]
  · rw [hupfd, hu2]
    rfl

/-- Witness for c4_known_events_consume_once: the fd state with
events_known = 1 (only IN observed) is immediately ready on all three
backends. -/
theorem c4_known_events_consume_once_witness :
    (reactor_backend_aio.readable ⟨0, 1, 0, false⟩).ready = true
  ∧ (reactor_backend_epoll.readable ⟨0, 1, 0, false⟩).ready = true
  ∧ (reactor_backend_uring.readable ⟨0, 1, 0, false⟩).ready = true := by
  exact ⟨(c4_known_events_consume_once ⟨0, 1, 0, false⟩ (by decide)).1.1,
         (c4_known_events_consume_once ⟨0, 1, 0, false⟩ (by decide)).2.1.1,
         (c4_known_events_consume_once ⟨0, 1, 0, false⟩ (by decide)).2.2.1⟩

/-- The retry condition of reap_completions, as a Boolean predicate on
events: the harvested result is -EAGAIN and retry is allowed. -/
def retried_event (allow_retry : Bool) (ev : aio_storage_context.IoEvent) : Bool :=
  decide (ev.res = -(EAGAIN : Int)) && allow_retry

/-- Helper: closed form of the reap_completions event fold - retried
events go to the pending-retry queue with nowait cleared, all other
events release their iocb and fire their completion with the signed
result, in order. -/
theorem reap_foldl_spec (allow_retry : Bool) (evs : List aio_storage_context.IoEvent)
    (acc : ReapOut) :
    evs.foldl (reap_event allow_retry) acc =
      { free := ((evs.filter fun e => !(retried_event allow_retry e)).map
            (fun e => e.obj.id)).reverse ++ acc.free,
        pending_retry := acc.pending_retry ++
          (evs.filter (retried_event allow_retry)).map
            (fun e => set_nowait_iocb e.obj false),
        fired := acc.fired ++
          (evs.filter fun e => !(retried_event allow_retry e)).map
            (fun e => (e.data, e.res)),
        ret := acc.ret } := by
  induction evs generalizing acc with
  | nil => simp
  | cons e rest ih =>
    rw [List.foldl_cons, ih]
    by_cases hc : e.res = -(EAGAIN : Int) ∧ allow_retry = true
    · obtain ⟨hc1, hc2⟩ := hc
      subst hc2
      have hb : retried_event true e = true := by
        simp [retried_event, hc1]
      simp [reap_event, hc1, List.filter_cons, hb]
    · have hb : retried_event allow_retry e = false := by
        cases hr : allow_retry with
        | false =>
          simp [retried_event]
        | true =>
          subst hr
          have h1 : ¬(e.res = -(EAGAIN : Int)) := fun h1 => hc ⟨h1, rfl⟩
          simp [retried_event, h1]
      simp [reap_event, hc, List.filter_cons, hb]

/-- Claim C7: for every batch of harvested events, reap_completions
re-queues exactly the events whose result is -EAGAIN (when retry is
allowed) into the pending-retry queue with the nowait hint cleared,
neither releasing those iocbs nor invoking their completions; every
other event's iocb is released to the pool and its signed result is
delivered to its completion; and the call returns whether any event was
harvested. -/
theorem c7_reap_completions_spec (allow_retry : Bool) (free : List Nat)
    (pending_retry : List Iocb) (evs : List aio_storage_context.IoEvent) :
    reap_completions allow_retry free pending_retry (.ok evs) =
      some { free := ((evs.filter fun e => !(retried_event allow_retry e)).map
                (fun e => e.obj.id)).reverse ++ free,
             pending_retry := pending_retry ++
               (evs.filter (retried_event allow_retry)).map
                 (fun e => set_nowait_iocb e.obj false),
             fired := (evs.filter fun e => !(retried_event allow_retry e)).map
               (fun e => (e.data, e.res)),
             ret := !evs.isEmpty } := by
  simp only [reap_completions, reap_foldl_spec, List.nil_append]

/-- Claim C8: the selector's create constructs the backend matching each
of the three accepted tags, fails with the runtime error when io_uring
is requested but uring support was not compiled in, and fails with the
logic error exactly on unknown tags. -/
theorem c8_selector_create (have_uring : Bool) (name : String) :
    (reactor_backend_selector.create have_uring name = .logicError "bad reactor backend"
      ↔ name ≠ "io_uring" ∧ name ≠ "linux-aio" ∧ name ≠ "epoll")
  ∧ reactor_backend_selector.create false "io_uring"
      = .runtimeError "io_uring backend not compiled in"
  ∧ reactor_backend_selector.create true "io_uring" = .backend .uring
  ∧ reactor_backend_selector.create have_uring "linux-aio" = .backend .aio
  ∧ reactor_backend_selector.create have_uring "epoll" = .backend .epoll := by
  refine ⟨⟨?_, ?_⟩, rfl, rfl, rfl, rfl⟩
  · intro hl
    refine ⟨?_, ?_, ?_⟩ <;> intro hname
    · subst hname
      cases have_uring <;> simp [reactor_backend_selector.create] at hl
    · subst hname
      simp [reactor_backend_selector.create] at hl
    · subst hname
      simp [reactor_backend_selector.create] at hl
  · rintro ⟨h1, h2, h3⟩
    simp [reactor_backend_selector.create, h1, h2, h3]

/-- Witness for c8_selector_create: epoll is constructed for the epoll
tag, and an unknown tag yields the logic error. -/
theorem c8_selector_create_witness :
    reactor_backend_selector.create true "epoll"
      = .backend .epoll
  ∧ reactor_backend_selector.create true "uring-io"
      = .logicError "bad reactor backend" := by
  exact ⟨(c8_selector_create true "epoll").2.2.2.2,
         (c8_selector_create true "uring-io").1.mpr
           ⟨by decide, by decide, by decide⟩⟩

/-- Claim C9: the epoll backend's reap_kernel_completions is exactly the
shared AIO storage context's reap_completions - it performs no
epoll_pwait and completes no pollable-fd readiness future - while the
readiness processing of wait_and_process happens only inside
kernel_submit_work (and there only when _need_epoll_events is set) and
inside wait_and_process_events. -/
theorem c9_epoll_reap_storage_only (allow_retry : Bool) (free : List Nat)
    (pending_retry : List Iocb) (gev : aio_storage_context.GeteventsResult)
    (items : List reactor_backend_epoll.WaitItem) (highres_pending : Bool) :
    (∀ b out tr,
        reactor_backend_epoll.reap_kernel_completions allow_retry free pending_retry gev
            = some (b, out, tr) →
          b = out.ret
        ∧ reap_completions allow_retry free pending_retry gev = some out
        ∧ tr.all (fun e => ! e.is_readiness) = true)
  ∧ reactor_backend_epoll.kernel_submit_work_trace true items highres_pending =
      reactor_backend_epoll.wait_and_process_trace 0 items ++
        (if highres_pending then [.highres_service] else [])
  ∧ (∀ e ∈ reactor_backend_epoll.kernel_submit_work_trace false items highres_pending,
        e.is_readiness = false)
  ∧ reactor_backend_epoll.Effect.epoll_pwait_call (-1) ∈
      reactor_backend_epoll.wait_and_process_events_trace items highres_pending := by
  refine ⟨?_, rfl, ?_, ?_⟩
  · intro b out tr hsome
    rw [reactor_backend_epoll.reap_kernel_completions] at hsome
    rcases hrc : reap_completions allow_retry free pending_retry gev with _ | o <;>
      rw [hrc] at hsome
    · cases hsome
    · have heq := Option.some.inj hsome
      simp only [Prod.mk.injEq] at heq
      obtain ⟨h1, h2, h3⟩ := heq
      subst h1
      subst h2
      subst h3
      refine ⟨rfl, rfl, ?_⟩
      simp only [List.all_cons, List.all_eq_true, Bool.and_eq_true]
      refine ⟨rfl, ?_⟩
      intro e he
      rcases List.mem_map.mp he with ⟨c, _, hc⟩
      rw [← hc]
      rfl
  · intro e he
    rw [reactor_backend_epoll.kernel_submit_work_trace] at he
    cases highres_pending <;> simp at he
    rw [he]
    rfl
  · rw [reactor_backend_epoll.wait_and_process_events_trace,
        reactor_backend_epoll.wait_and_process_trace]
    exact List.mem_append_left _ (List.mem_cons_self _ _)

/-- Witness for c9_epoll_reap_storage_only: reaping with an empty
harvest returns false, agrees with the storage context, and records
only the io_getevents call in its trace. -/
theorem c9_epoll_reap_storage_only_witness :
    false = (ReapOut.mk [] [] [] false).ret
  ∧ reap_completions true [] [] (.ok []) = some (ReapOut.mk [] [] [] false)
  ∧ ([reactor_backend_epoll.Effect.io_getevents_call].all
      (fun e => ! e.is_readiness) = true) := by
  exact (c9_epoll_reap_storage_only true [] [] (.ok []) [] false).1
    false ⟨[], [], [], false⟩ [.io_getevents_call] rfl

end ReactorBackend
